import Mathlib

/-!
Shallow embedding of the transaction-processor repository
(src/transaction_processor.rs, src/main.rs; the two files implement the
same handler logic, differing only in float width and borrow style).

Monetary amounts are embedded as exact rationals (the claims under
verification take monetary arithmetic exactly).  Rust `HashMap` becomes a
function into `Option`; `get_mut` followed by in-place mutation becomes a
functional insert at the same key.  A Rust panic (`unwrap` / `expect` on a
missing amount) is embedded as `Option.none` on the handler result.
-/

namespace TxProc

/-- Mirrors `struct ClientAccount` (transaction_processor.rs lines 141-156). -/
@[ext]
structure ClientAccount where
  client : ℕ
  available : ℚ
  held : ℚ
  total : ℚ
  locked : Bool
deriving DecidableEq, Repr

/-- Mirrors `enum Action` (transaction_processor.rs lines 158-166). -/
inductive Action where
  | deposit
  | withdrawal
  | dispute
  | resolve
  | chargeback
deriving DecidableEq, Repr

/-- Mirrors `struct Record` (transaction_processor.rs lines 131-139):
a parsed transaction event, with an optional amount. -/
@[ext]
structure Record where
  action : Action
  client : ℕ
  transaction : ℕ
  amount : Option ℚ
deriving DecidableEq, Repr

/-- Mirrors `struct TransactionProcessor` (transaction_processor.rs lines
6-11): the account map and the transaction log, as partial maps. -/
@[ext]
structure TransactionProcessor where
  accounts : ℕ → Option ClientAccount
  transaction_log : ℕ → Option Record

/-- Rust `HashMap::insert`: point update of a partial map. -/
def insertFn {α : Type} (m : ℕ → Option α) (k : ℕ) (v : α) : ℕ → Option α :=
  fun k2 => if k2 = k then some v else m k2

/-- Rust `TransactionProcessor::new` (lines 14-19): empty maps. -/
def TransactionProcessor.new : TransactionProcessor :=
  { accounts := fun _ => none, transaction_log := fun _ => none }

/-- Rust `handle_deposit` (lines 39-61).  `deposit.amount.unwrap()` panics when the
amount is absent, embedded as `none`.  Otherwise: add to `available` and
`total` of the existing account, or create the account; then log the record. -/
def handle_deposit (st : TransactionProcessor) (deposit : Record) :
    Option TransactionProcessor :=
  match deposit.amount with
  | none => none
  | some deposit_amount =>
    let accounts2 :=
      match st.accounts deposit.client with
      | some client =>
          insertFn st.accounts deposit.client
            { client with
              available := client.available + deposit_amount,
              total := client.total + deposit_amount }
      | none =>
          insertFn st.accounts deposit.client
            { client := deposit.client, available := deposit_amount,
              held := 0, total := deposit_amount, locked := false }
    some { accounts := accounts2,
           transaction_log := insertFn st.transaction_log deposit.transaction deposit }

/-- Rust `handle_withdrawal` (lines 63-76).  The amount is unwrapped before any
check (panic when absent).  The account is mutated only when it exists and
`available - amount >= 0`; the record is logged unconditionally. -/
def handle_withdrawal (st : TransactionProcessor) (withdrawal : Record) :
    Option TransactionProcessor :=
  match withdrawal.amount with
  | none => none
  | some withdrawal_amount =>
    let accounts2 :=
      match st.accounts withdrawal.client with
      | some account =>
          if account.available - withdrawal_amount ≥ 0 then
            insertFn st.accounts withdrawal.client
              { account with
                available := account.available - withdrawal_amount,
                total := account.total - withdrawal_amount }
          else st.accounts
      | none => st.accounts
    some { accounts := accounts2,
           transaction_log := insertFn st.transaction_log withdrawal.transaction withdrawal }

/-- Rust `handle_dispute` (lines 78-90).  If the event's client has an account and
the referenced transaction is logged: `held += tx.amount`,
`available -= tx.amount` (panic when the logged amount is absent).
No client-match check, no locked check, no disputed flag. -/
def handle_dispute (st : TransactionProcessor) (dispute : Record) :
    Option TransactionProcessor :=
  match st.accounts dispute.client with
  | none => some st
  | some account =>
    match st.transaction_log dispute.transaction with
    | none => some st
    | some tx =>
      match tx.amount with
      | none => none
      | some a =>
        some { st with
               accounts := insertFn st.accounts dispute.client
                 { account with
                   held := account.held + a,
                   available := account.available - a } }

/-- Rust `handle_resolve` (lines 92-104).  If the event's client has an account and
the referenced transaction is logged: `held -= tx.amount`,
`available += tx.amount`. -/
def handle_resolve (st : TransactionProcessor) (resolve : Record) :
    Option TransactionProcessor :=
  match st.accounts resolve.client with
  | none => some st
  | some account =>
    match st.transaction_log resolve.transaction with
    | none => some st
    | some tx =>
      match tx.amount with
      | none => none
      | some a =>
        some { st with
               accounts := insertFn st.accounts resolve.client
                 { account with
                   held := account.held - a,
                   available := account.available + a } }

/-- Rust `handle_chargeback` (lines 106-119).  If the event's client has an account
and the referenced transaction is logged: `held -= tx.amount`,
`total -= tx.amount`, `locked = true`. -/
def handle_chargeback (st : TransactionProcessor) (chargeback : Record) :
    Option TransactionProcessor :=
  match st.accounts chargeback.client with
  | none => some st
  | some account =>
    match st.transaction_log chargeback.transaction with
    | none => some st
    | some tx =>
      match tx.amount with
      | none => none
      | some a =>
        some { st with
               accounts := insertFn st.accounts chargeback.client
                 { account with
                   held := account.held - a,
                   total := account.total - a,
                   locked := true } }

/-- The dispatch in `stream_csv` (lines 25-34): route one event to its
handler by action kind. -/
def applyEvent (st : TransactionProcessor) (record : Record) :
    Option TransactionProcessor :=
  match record.action with
  | Action.deposit => handle_deposit st record
  | Action.withdrawal => handle_withdrawal st record
  | Action.dispute => handle_dispute st record
  | Action.resolve => handle_resolve st record
  | Action.chargeback => handle_chargeback st record

/-- The `stream_csv` loop over a finite event sequence: apply the events in
order, propagating a panic as `none`. -/
def processEvents (st : TransactionProcessor) : List Record → Option TransactionProcessor
  | [] => some st
  | e :: rest => (applyEvent st e).bind (fun st2 => processEvents st2 rest)

/-! ## Helper lemmas about the map embedding -/

lemma insertFn_self {α : Type} (m : ℕ → Option α) (k : ℕ) (v : α) :
    insertFn m k v k = some v := by
  simp [insertFn]

lemma insertFn_ne {α : Type} (m : ℕ → Option α) {k k2 : ℕ} (v : α) (h : k2 ≠ k) :
    insertFn m k v k2 = m k2 := by
  simp [insertFn, h]

/-! ## The balance invariant (claim C1) -/

/-- Every stored account satisfies `total = available + held`. -/
def balanced (st : TransactionProcessor) : Prop :=
  ∀ c acc, st.accounts c = some acc → acc.total = acc.available + acc.held

lemma balanced_insert {st : TransactionProcessor} (hb : balanced st) (k : ℕ)
    (v : ClientAccount) (hv : v.total = v.available + v.held) (L : ℕ → Option Record) :
    balanced { accounts := insertFn st.accounts k v, transaction_log := L } := by
  intro c acc hc
  simp only [insertFn] at hc
  split at hc
  · cases hc; exact hv
  · exact hb c acc hc

lemma balanced_keep {st : TransactionProcessor} (hb : balanced st)
    (L : ℕ → Option Record) :
    balanced { accounts := st.accounts, transaction_log := L } := by
  intro c acc hc
  exact hb c acc hc

/-- Single-event preservation: every handler keeps every touched account
balanced. -/
lemma applyEvent_balanced {st st2 : TransactionProcessor} {e : Record}
    (h : applyEvent st e = some st2) (hb : balanced st) : balanced st2 := by
  cases hA : e.action
  case deposit =>
    simp only [applyEvent, hA] at h
    cases hamt : e.amount with
    | none => simp [handle_deposit, hamt] at h
    | some a =>
      cases hacc : st.accounts e.client with
      | none =>
        simp only [handle_deposit, hamt, hacc, Option.some.injEq] at h
        subst h
        exact balanced_insert hb _ _ (by simp) _
      | some acc =>
        simp only [handle_deposit, hamt, hacc, Option.some.injEq] at h
        subst h
        exact balanced_insert hb _ _
          (by have := hb _ _ hacc; simp; linarith) _
  case withdrawal =>
    simp only [applyEvent, hA] at h
    cases hamt : e.amount with
    | none => simp [handle_withdrawal, hamt] at h
    | some a =>
      cases hacc : st.accounts e.client with
      | none =>
        simp only [handle_withdrawal, hamt, hacc, Option.some.injEq] at h
        subst h
        exact balanced_keep hb _
      | some acc =>
        by_cases hcond : acc.available - a ≥ 0
        · simp only [handle_withdrawal, hamt, hacc, if_pos hcond, Option.some.injEq] at h
          subst h
          exact balanced_insert hb _ _
            (by have := hb _ _ hacc; simp; linarith) _
        · simp only [handle_withdrawal, hamt, hacc, if_neg hcond, Option.some.injEq] at h
          subst h
          exact balanced_keep hb _
  case dispute =>
    simp only [applyEvent, hA] at h
    cases hacc : st.accounts e.client with
    | none =>
      simp only [handle_dispute, hacc, Option.some.injEq] at h
      subst h; exact hb
    | some acc =>
      cases htx : st.transaction_log e.transaction with
      | none =>
        simp only [handle_dispute, hacc, htx, Option.some.injEq] at h
        subst h; exact hb
      | some tx =>
        cases hamt : tx.amount with
        | none => simp [handle_dispute, hacc, htx, hamt] at h
        | some a =>
          simp only [handle_dispute, hacc, htx, hamt, Option.some.injEq] at h
          subst h
          exact balanced_insert hb _ _
            (by have := hb _ _ hacc; simp; linarith) _
  case resolve =>
    simp only [applyEvent, hA] at h
    cases hacc : st.accounts e.client with
    | none =>
      simp only [handle_resolve, hacc, Option.some.injEq] at h
      subst h; exact hb
    | some acc =>
      cases htx : st.transaction_log e.transaction with
      | none =>
        simp only [handle_resolve, hacc, htx, Option.some.injEq] at h
        subst h; exact hb
      | some tx =>
        cases hamt : tx.amount with
        | none => simp [handle_resolve, hacc, htx, hamt] at h
        | some a =>
          simp only [handle_resolve, hacc, htx, hamt, Option.some.injEq] at h
          subst h
          exact balanced_insert hb _ _
            (by have := hb _ _ hacc; simp; linarith) _
  case chargeback =>
    simp only [applyEvent, hA] at h
    cases hacc : st.accounts e.client with
    | none =>
      simp only [handle_chargeback, hacc, Option.some.injEq] at h
      subst h; exact hb
    | some acc =>
      cases htx : st.transaction_log e.transaction with
      | none =>
        simp only [handle_chargeback, hacc, htx, Option.some.injEq] at h
        subst h; exact hb
      | some tx =>
        cases hamt : tx.amount with
        | none => simp [handle_chargeback, hacc, htx, hamt] at h
        | some a =>
          simp only [handle_chargeback, hacc, htx, hamt, Option.some.injEq] at h
          subst h
          exact balanced_insert hb _ _
            (by have := hb _ _ hacc; simp; linarith) _

lemma processEvents_balanced :
    ∀ (evs : List Record) (st0 st1 : TransactionProcessor),
      processEvents st0 evs = some st1 → balanced st0 → balanced st1 := by
  intro evs
  induction evs with
  | nil =>
    intro st0 st1 h hb
    simp only [processEvents, Option.some.injEq] at h
    subst h; exact hb
  | cons e rest ih =>
    intro st0 st1 h hb
    simp only [processEvents] at h
    cases happ : applyEvent st0 e with
    | none => rw [happ] at h; simp at h
    | some stm =>
      rw [happ] at h
      simp only [Option.some_bind] at h
      exact ih stm st1 h (applyEvent_balanced happ hb)

/-- Claim C1: for every sequence of events processed from the initial state, every
account of the resulting state satisfies total = available + held, with
monetary arithmetic taken exactly; quantifying over all sequences covers
every intermediate state, and the per-handler preservation is
applyEvent_balanced. -/
theorem C1_total_invariant (evs : List Record) (st : TransactionProcessor)
    (h : processEvents TransactionProcessor.new evs = some st) : balanced st :=
  processEvents_balanced evs TransactionProcessor.new st h
    (by intro c acc hc; simp [TransactionProcessor.new] at hc)

theorem C1_total_invariant_witness :
    processEvents TransactionProcessor.new
        [{ action := Action.deposit, client := 1, transaction := 1, amount := some 10 }]
      = some { accounts := insertFn (fun _ => none) 1
                 { client := 1, available := 10, held := 0, total := 10, locked := false },
               transaction_log := insertFn (fun _ => none) 1
                 { action := Action.deposit, client := 1, transaction := 1, amount := some 10 } } ∧
    balanced { accounts := insertFn (fun _ => none) 1
                 { client := 1, available := 10, held := 0, total := 10, locked := false },
               transaction_log := insertFn (fun _ => none) 1
                 { action := Action.deposit, client := 1, transaction := 1, amount := some 10 } } :=
  ⟨rfl, C1_total_invariant
    [{ action := Action.deposit, client := 1, transaction := 1, amount := some 10 }] _ rfl⟩

/-! ## Frame property of a single event (claim C9), shared with C8 -/

lemma applyEvent_frame {st st2 : TransactionProcessor} {e : Record}
    (h : applyEvent st e = some st2) {c : ℕ} (hne : c ≠ e.client) :
    st2.accounts c = st.accounts c := by
  cases hA : e.action
  case deposit =>
    simp only [applyEvent, hA] at h
    cases hamt : e.amount with
    | none => simp [handle_deposit, hamt] at h
    | some a =>
      cases hacc : st.accounts e.client with
      | none =>
        simp only [handle_deposit, hamt, hacc, Option.some.injEq] at h
        subst h
        exact insertFn_ne _ _ hne
      | some acc =>
        simp only [handle_deposit, hamt, hacc, Option.some.injEq] at h
        subst h
        exact insertFn_ne _ _ hne
  case withdrawal =>
    simp only [applyEvent, hA] at h
    cases hamt : e.amount with
    | none => simp [handle_withdrawal, hamt] at h
    | some a =>
      cases hacc : st.accounts e.client with
      | none =>
        simp only [handle_withdrawal, hamt, hacc, Option.some.injEq] at h
        subst h
        rfl
      | some acc =>
        by_cases hcond : acc.available - a ≥ 0
        · simp only [handle_withdrawal, hamt, hacc, if_pos hcond, Option.some.injEq] at h
          subst h
          exact insertFn_ne _ _ hne
        · simp only [handle_withdrawal, hamt, hacc, if_neg hcond, Option.some.injEq] at h
          subst h
          rfl
  case dispute =>
    simp only [applyEvent, hA] at h
    cases hacc : st.accounts e.client with
    | none =>
      simp only [handle_dispute, hacc, Option.some.injEq] at h
      subst h; rfl
    | some acc =>
      cases htx : st.transaction_log e.transaction with
      | none =>
        simp only [handle_dispute, hacc, htx, Option.some.injEq] at h
        subst h; rfl
      | some tx =>
        cases hamt : tx.amount with
        | none => simp [handle_dispute, hacc, htx, hamt] at h
        | some a =>
          simp only [handle_dispute, hacc, htx, hamt, Option.some.injEq] at h
          subst h
          exact insertFn_ne _ _ hne
  case resolve =>
    simp only [applyEvent, hA] at h
    cases hacc : st.accounts e.client with
    | none =>
      simp only [handle_resolve, hacc, Option.some.injEq] at h
      subst h; rfl
    | some acc =>
      cases htx : st.transaction_log e.transaction with
      | none =>
        simp only [handle_resolve, hacc, htx, Option.some.injEq] at h
        subst h; rfl
      | some tx =>
        cases hamt : tx.amount with
        | none => simp [handle_resolve, hacc, htx, hamt] at h
        | some a =>
          simp only [handle_resolve, hacc, htx, hamt, Option.some.injEq] at h
          subst h
          exact insertFn_ne _ _ hne
  case chargeback =>
    simp only [applyEvent, hA] at h
    cases hacc : st.accounts e.client with
    | none =>
      simp only [handle_chargeback, hacc, Option.some.injEq] at h
      subst h; rfl
    | some acc =>
      cases htx : st.transaction_log e.transaction with
      | none =>
        simp only [handle_chargeback, hacc, htx, Option.some.injEq] at h
        subst h; rfl
      | some tx =>
        cases hamt : tx.amount with
        | none => simp [handle_chargeback, hacc, htx, hamt] at h
        | some a =>
          simp only [handle_chargeback, hacc, htx, hamt, Option.some.injEq] at h
          subst h
          exact insertFn_ne _ _ hne

/-- Claim C9: a single event mutates at most the account of the event's client:
every other client's account is identical before and after. -/
theorem C9_frame (st st2 : TransactionProcessor) (e : Record) (c : ℕ)
    (h : applyEvent st e = some st2) (hne : c ≠ e.client) :
    st2.accounts c = st.accounts c :=
  applyEvent_frame h hne

theorem C9_frame_witness :
    ({ accounts := insertFn (fun _ => none) 1
         { client := 1, available := 10, held := 0, total := 10, locked := false },
       transaction_log := insertFn (fun _ => none) 1
         { action := Action.deposit, client := 1, transaction := 1, amount := some 10 } }
        : TransactionProcessor).accounts 2
      = (TransactionProcessor.new).accounts 2 :=
  C9_frame TransactionProcessor.new _
    { action := Action.deposit, client := 1, transaction := 1, amount := some 10 } 2
    rfl (by decide)

/-! ## Monotonicity of the locked flag (claim C8) -/

lemma applyEvent_locked_step {st st2 : TransactionProcessor} {e : Record}
    (h : applyEvent st e = some st2) {c : ℕ} {acc : ClientAccount}
    (hc : st.accounts c = some acc) (hl : acc.locked = true) :
    ∃ acc2, st2.accounts c = some acc2 ∧ acc2.locked = true := by
  by_cases hne : c = e.client
  case neg =>
    exact ⟨acc, (applyEvent_frame h hne).trans hc, hl⟩
  case pos =>
    subst hne
    cases hA : e.action
    case deposit =>
      simp only [applyEvent, hA] at h
      cases hamt : e.amount with
      | none => simp [handle_deposit, hamt] at h
      | some a =>
        simp only [handle_deposit, hamt, hc, Option.some.injEq] at h
        subst h
        exact ⟨_, insertFn_self _ _ _, hl⟩
    case withdrawal =>
      simp only [applyEvent, hA] at h
      cases hamt : e.amount with
      | none => simp [handle_withdrawal, hamt] at h
      | some a =>
        by_cases hcond : acc.available - a ≥ 0
        · simp only [handle_withdrawal, hamt, hc, if_pos hcond, Option.some.injEq] at h
          subst h
          exact ⟨_, insertFn_self _ _ _, hl⟩
        · simp only [handle_withdrawal, hamt, hc, if_neg hcond, Option.some.injEq] at h
          subst h
          exact ⟨acc, hc, hl⟩
    case dispute =>
      simp only [applyEvent, hA] at h
      cases htx : st.transaction_log e.transaction with
      | none =>
        simp only [handle_dispute, hc, htx, Option.some.injEq] at h
        subst h
        exact ⟨acc, hc, hl⟩
      | some tx =>
        cases hamt : tx.amount with
        | none => simp [handle_dispute, hc, htx, hamt] at h
        | some a =>
          simp only [handle_dispute, hc, htx, hamt, Option.some.injEq] at h
          subst h
          exact ⟨_, insertFn_self _ _ _, hl⟩
    case resolve =>
      simp only [applyEvent, hA] at h
      cases htx : st.transaction_log e.transaction with
      | none =>
        simp only [handle_resolve, hc, htx, Option.some.injEq] at h
        subst h
        exact ⟨acc, hc, hl⟩
      | some tx =>
        cases hamt : tx.amount with
        | none => simp [handle_resolve, hc, htx, hamt] at h
        | some a =>
          simp only [handle_resolve, hc, htx, hamt, Option.some.injEq] at h
          subst h
          exact ⟨_, insertFn_self _ _ _, hl⟩
    case chargeback =>
      simp only [applyEvent, hA] at h
      cases htx : st.transaction_log e.transaction with
      | none =>
        simp only [handle_chargeback, hc, htx, Option.some.injEq] at h
        subst h
        exact ⟨acc, hc, hl⟩
      | some tx =>
        cases hamt : tx.amount with
        | none => simp [handle_chargeback, hc, htx, hamt] at h
        | some a =>
          simp only [handle_chargeback, hc, htx, hamt, Option.some.injEq] at h
          subst h
          exact ⟨_, insertFn_self _ _ _, rfl⟩

lemma processEvents_locked_mono :
    ∀ (evs : List Record) (st0 st1 : TransactionProcessor),
      processEvents st0 evs = some st1 →
      ∀ c acc, st0.accounts c = some acc → acc.locked = true →
      ∃ acc2, st1.accounts c = some acc2 ∧ acc2.locked = true := by
  intro evs
  induction evs with
  | nil =>
    intro st0 st1 h c acc hc hl
    simp only [processEvents, Option.some.injEq] at h
    subst h
    exact ⟨acc, hc, hl⟩
  | cons e rest ih =>
    intro st0 st1 h c acc hc hl
    simp only [processEvents] at h
    cases happ : applyEvent st0 e with
    | none => rw [happ] at h; simp at h
    | some stm =>
      rw [happ] at h
      simp only [Option.some_bind] at h
      obtain ⟨acc2, hc2, hl2⟩ := applyEvent_locked_step happ hc hl
      exact ih stm st1 h c acc2 hc2 hl2

/-- Claim C8: the locked flag is monotonic across any run: from any state in which
an account is locked, processing any further event sequence leaves that
account present and locked. -/
theorem C8_locked_monotonic (evs : List Record) (st0 st1 : TransactionProcessor)
    (h : processEvents st0 evs = some st1) (c : ℕ) (acc : ClientAccount)
    (hc : st0.accounts c = some acc) (hl : acc.locked = true) :
    ∃ acc2, st1.accounts c = some acc2 ∧ acc2.locked = true :=
  processEvents_locked_mono evs st0 st1 h c acc hc hl

theorem C8_locked_monotonic_witness :
    ∃ acc2, ({ accounts := insertFn (fun _ => none) 1
                 { client := 1, available := 3, held := 0, total := 3, locked := true },
               transaction_log := fun _ => none } : TransactionProcessor).accounts 1
        = some acc2 ∧ acc2.locked = true :=
  C8_locked_monotonic
    [{ action := Action.dispute, client := 1, transaction := 99, amount := none }]
    { accounts := insertFn (fun _ => none) 1
        { client := 1, available := 3, held := 0, total := 3, locked := true },
      transaction_log := fun _ => none }
    _ rfl 1
    { client := 1, available := 3, held := 0, total := 3, locked := true }
    rfl rfl

/-! ## Behaviour of events on locked accounts (claim C2) -/

/-- The same processor with the locked flag of account c set to b (identity
when that account is absent). -/
def setLockedOn (st : TransactionProcessor) (c : ℕ) (b : Bool) : TransactionProcessor :=
  { st with accounts := fun k =>
      if k = c then (st.accounts k).map (fun a => { a with locked := b })
      else st.accounts k }

/-- Claim C2 counterexample: a Deposit targeting a locked account is not ignored:
depositing 5 into a locked account with all balances 0 yields available = 5
and total = 5, so the account's fields change. -/
theorem C2_locked_counterexample :
    ((handle_deposit
        { accounts := insertFn (fun _ => none) 1
            { client := 1, available := 0, held := 0, total := 0, locked := true },
          transaction_log := fun _ => none }
        { action := Action.deposit, client := 1, transaction := 7, amount := some 5 }).bind
      (fun st => st.accounts 1))
      = some { client := 1, available := 5, held := 0, total := 5, locked := true } ∧
    ({ client := 1, available := 5, held := 0, total := 5, locked := true } : ClientAccount)
      ≠ { client := 1, available := 0, held := 0, total := 0, locked := true } := by
  constructor
  · norm_num [handle_deposit, insertFn]
  · simp only [ne_eq, ClientAccount.mk.injEq]
    norm_num

/-- Claim C2 amended: the locked flag is never consulted by Deposit, Withdrawal,
Dispute, or Resolve: applying such an event to the state with the target
account's locked flag overwritten by any value b gives exactly the result of
applying it to the original state and then overwriting the flag with b; in
particular the balances of a locked account are updated by the normal rules
and the flag itself is left unchanged by these four handlers. -/
theorem C2_locked_never_consulted (st : TransactionProcessor) (e : Record) (b : Bool)
    (acc : ClientAccount) (hacc : st.accounts e.client = some acc)
    (hact : e.action ≠ Action.chargeback) :
    applyEvent (setLockedOn st e.client b) e
      = (applyEvent st e).map (fun st2 => setLockedOn st2 e.client b) := by
  have hacc2 : (setLockedOn st e.client b).accounts e.client
      = some { acc with locked := b } := by
    simp [setLockedOn, hacc]
  have hlog : ∀ t, (setLockedOn st e.client b).transaction_log t
      = st.transaction_log t := fun _ => rfl
  cases hA : e.action
  case chargeback => exact absurd hA hact
  case deposit =>
    cases hamt : e.amount with
    | none => simp [applyEvent, hA, handle_deposit, hamt]
    | some a =>
      simp only [applyEvent, hA, handle_deposit, hamt, hacc, hacc2, Option.map_some]
      congr 1
      apply TransactionProcessor.ext
      · funext k
        by_cases hk : k = e.client
        · subst hk
          simp [insertFn, setLockedOn, hacc]
        · simp [insertFn, setLockedOn, hk]
      · rfl
  case withdrawal =>
    cases hamt : e.amount with
    | none => simp [applyEvent, hA, handle_withdrawal, hamt]
    | some a =>
      by_cases hcond : acc.available - a ≥ 0
      · have hcond2 : ({ acc with locked := b } : ClientAccount).available - a ≥ 0 := hcond
        simp only [applyEvent, hA, handle_withdrawal, hamt, hacc, hacc2,
          if_pos hcond, if_pos hcond2, Option.map_some]
        congr 1
        apply TransactionProcessor.ext
        · funext k
          by_cases hk : k = e.client
          · subst hk
            simp [insertFn, setLockedOn, hacc]
          · simp [insertFn, setLockedOn, hk]
        · rfl
      · have hcond2 : ¬ (({ acc with locked := b } : ClientAccount).available - a ≥ 0) := hcond
        simp only [applyEvent, hA, handle_withdrawal, hamt, hacc, hacc2,
          if_neg hcond, if_neg hcond2, Option.map_some]
        rfl
  case dispute =>
    cases htx : st.transaction_log e.transaction with
    | none =>
      simp only [applyEvent, hA, handle_dispute, hacc, hacc2, hlog, htx, Option.map_some]
      rfl
    | some tx =>
      cases hamt : tx.amount with
      | none =>
        simp [applyEvent, hA, handle_dispute, hacc, hacc2, hlog, htx, hamt]
      | some a =>
        simp only [applyEvent, hA, handle_dispute, hacc, hacc2, hlog, htx, hamt,
          Option.map_some]
        congr 1
        apply TransactionProcessor.ext
        · funext k
          by_cases hk : k = e.client
          · subst hk
            simp [insertFn, setLockedOn, hacc]
          · simp [insertFn, setLockedOn, hk]
        · rfl
  case resolve =>
    cases htx : st.transaction_log e.transaction with
    | none =>
      simp only [applyEvent, hA, handle_resolve, hacc, hacc2, hlog, htx, Option.map_some]
      rfl
    | some tx =>
      cases hamt : tx.amount with
      | none =>
        simp [applyEvent, hA, handle_resolve, hacc, hacc2, hlog, htx, hamt]
      | some a =>
        simp only [applyEvent, hA, handle_resolve, hacc, hacc2, hlog, htx, hamt,
          Option.map_some]
        congr 1
        apply TransactionProcessor.ext
        · funext k
          by_cases hk : k = e.client
          · subst hk
            simp [insertFn, setLockedOn, hacc]
          · simp [insertFn, setLockedOn, hk]
        · rfl

theorem C2_locked_never_consulted_witness :
    applyEvent
        (setLockedOn
          { accounts := insertFn (fun _ => none) 1
              { client := 1, available := 3, held := 0, total := 3, locked := true },
            transaction_log := fun _ => none }
          1 true)
        { action := Action.dispute, client := 1, transaction := 99, amount := none }
      = (applyEvent
          { accounts := insertFn (fun _ => none) 1
              { client := 1, available := 3, held := 0, total := 3, locked := true },
            transaction_log := fun _ => none }
          { action := Action.dispute, client := 1, transaction := 99, amount := none }).map
          (fun st2 => setLockedOn st2 1 true) :=
  C2_locked_never_consulted
    { accounts := insertFn (fun _ => none) 1
        { client := 1, available := 3, held := 0, total := 3, locked := true },
      transaction_log := fun _ => none }
    { action := Action.dispute, client := 1, transaction := 99, amount := none }
    true
    { client := 1, available := 3, held := 0, total := 3, locked := true }
    rfl (by decide)

/-! ## Disputes referencing another client's entry (claim C3) -/

/-- Claim C3 counterexample: client 1 deposits 10 (tx 1), client 2 deposits 5
(tx 2); a Dispute by client 2 referencing client 1's tx 1 is not ignored: it
moves 10 from client 2's available into its held. -/
theorem C3_client_mismatch_counterexample :
    ((processEvents TransactionProcessor.new
        [{ action := Action.deposit, client := 1, transaction := 1, amount := some 10 },
         { action := Action.deposit, client := 2, transaction := 2, amount := some 5 }]).bind
      (fun st => st.accounts 2))
      = some { client := 2, available := 5, held := 0, total := 5, locked := false } ∧
    ((processEvents TransactionProcessor.new
        [{ action := Action.deposit, client := 1, transaction := 1, amount := some 10 },
         { action := Action.deposit, client := 2, transaction := 2, amount := some 5 },
         { action := Action.dispute, client := 2, transaction := 1, amount := none }]).bind
      (fun st => st.accounts 2))
      = some { client := 2, available := -5, held := 10, total := 5, locked := false } := by
  constructor <;>
    norm_num [processEvents, applyEvent, handle_deposit, handle_dispute, insertFn,
      TransactionProcessor.new]

/-- Claim C3 amended: the entry's client is never compared with the event's
client: a Dispute whose referenced entry belongs to a different client is
still applied, moving the entry's amount from available to held on the
account of the event's client. -/
theorem C3_client_mismatch_applies (st : TransactionProcessor) (c t : ℕ)
    (tx : Record) (acc : ClientAccount) (a : ℚ)
    (hacc : st.accounts c = some acc)
    (htx : st.transaction_log t = some tx)
    (hamt : tx.amount = some a)
    (_hmismatch : tx.client ≠ c) :
    handle_dispute st { action := Action.dispute, client := c, transaction := t, amount := none }
      = some { st with accounts := (insertFn st.accounts c
          { acc with held := acc.held + a, available := acc.available - a }) } := by
  simp [handle_dispute, hacc, htx, hamt]

theorem C3_client_mismatch_applies_witness :
    handle_dispute
        { accounts := insertFn (fun _ => none) 2
            { client := 2, available := 5, held := 0, total := 5, locked := false },
          transaction_log := insertFn (fun _ => none) 1
            { action := Action.deposit, client := 1, transaction := 1, amount := some 10 } }
        { action := Action.dispute, client := 2, transaction := 1, amount := none }
      = some { accounts := insertFn
                 (insertFn (fun _ => none) 2
                   { client := 2, available := 5, held := 0, total := 5, locked := false }) 2
                 { client := 2, available := 5 - 10, held := 0 + 10, total := 5, locked := false },
               transaction_log := insertFn (fun _ => none) 1
                 { action := Action.deposit, client := 1, transaction := 1, amount := some 10 } } :=
  C3_client_mismatch_applies
    { accounts := insertFn (fun _ => none) 2
        { client := 2, available := 5, held := 0, total := 5, locked := false },
      transaction_log := insertFn (fun _ => none) 1
        { action := Action.deposit, client := 1, transaction := 1, amount := some 10 } }
    2 1
    { action := Action.deposit, client := 1, transaction := 1, amount := some 10 }
    { client := 2, available := 5, held := 0, total := 5, locked := false }
    10 rfl rfl rfl (by decide)

/-! ## Double dispute (claim C4) -/

/-- Claim C4 counterexample: after Deposit(client 1, tx 1, 10) and one
Dispute(1, 1) the account reads available 0, held 10; a second Dispute(1, 1)
is not ignored: it moves the amount again, leaving available -10, held 20. -/
theorem C4_double_dispute_counterexample :
    ((processEvents TransactionProcessor.new
        [{ action := Action.deposit, client := 1, transaction := 1, amount := some 10 },
         { action := Action.dispute, client := 1, transaction := 1, amount := none }]).bind
      (fun st => st.accounts 1))
      = some { client := 1, available := 0, held := 10, total := 10, locked := false } ∧
    ((processEvents TransactionProcessor.new
        [{ action := Action.deposit, client := 1, transaction := 1, amount := some 10 },
         { action := Action.dispute, client := 1, transaction := 1, amount := none },
         { action := Action.dispute, client := 1, transaction := 1, amount := none }]).bind
      (fun st => st.accounts 1))
      = some { client := 1, available := -10, held := 20, total := 10, locked := false } := by
  constructor <;>
    norm_num [processEvents, applyEvent, handle_deposit, handle_dispute, insertFn,
      TransactionProcessor.new]

/-- Claim C4 amended: no disputed flag exists on logged entries, so a Dispute
never marks its entry and a repeated Dispute for the same tx is applied
again: two Disputes for (c, t) move the entry's amount out of available and
into held twice. -/
theorem C4_double_dispute_moves_twice (st : TransactionProcessor) (c t : ℕ)
    (tx : Record) (acc : ClientAccount) (a : ℚ)
    (hacc : st.accounts c = some acc)
    (htx : st.transaction_log t = some tx)
    (hamt : tx.amount = some a) :
    ((handle_dispute st
        { action := Action.dispute, client := c, transaction := t, amount := none }).bind
      (fun st2 => handle_dispute st2
        { action := Action.dispute, client := c, transaction := t, amount := none })).bind
      (fun st3 => st3.accounts c)
      = some { acc with held := acc.held + a + a, available := acc.available - a - a } := by
  simp [handle_dispute, hacc, htx, hamt, insertFn]

theorem C4_double_dispute_moves_twice_witness :
    ((handle_dispute
        { accounts := insertFn (fun _ => none) 1
            { client := 1, available := 10, held := 0, total := 10, locked := false },
          transaction_log := insertFn (fun _ => none) 1
            { action := Action.deposit, client := 1, transaction := 1, amount := some 10 } }
        { action := Action.dispute, client := 1, transaction := 1, amount := none }).bind
      (fun st2 => handle_dispute st2
        { action := Action.dispute, client := 1, transaction := 1, amount := none })).bind
      (fun st3 => st3.accounts 1)
      = some { client := 1, available := 10 - 10 - 10, held := 0 + 10 + 10,
               total := 10, locked := false } :=
  C4_double_dispute_moves_twice
    { accounts := insertFn (fun _ => none) 1
        { client := 1, available := 10, held := 0, total := 10, locked := false },
      transaction_log := insertFn (fun _ => none) 1
        { action := Action.deposit, client := 1, transaction := 1, amount := some 10 } }
    1 1
    { action := Action.deposit, client := 1, transaction := 1, amount := some 10 }
    { client := 1, available := 10, held := 0, total := 10, locked := false }
    10 rfl rfl rfl

/-! ## Resolve and Chargeback without a pending dispute (claim C5) -/

/-- Claim C5 counterexample: after only Deposit(client 1, tx 1, 10), with no
Dispute ever issued, a Resolve(1, 1) is not ignored (it yields available 20,
held -10) and a Chargeback(1, 1) is not ignored either (it yields held -10,
total 0 and locks the account). -/
theorem C5_undisputed_counterexample :
    ((processEvents TransactionProcessor.new
        [{ action := Action.deposit, client := 1, transaction := 1, amount := some 10 },
         { action := Action.resolve, client := 1, transaction := 1, amount := none }]).bind
      (fun st => st.accounts 1))
      = some { client := 1, available := 20, held := -10, total := 10, locked := false } ∧
    ((processEvents TransactionProcessor.new
        [{ action := Action.deposit, client := 1, transaction := 1, amount := some 10 },
         { action := Action.chargeback, client := 1, transaction := 1, amount := none }]).bind
      (fun st => st.accounts 1))
      = some { client := 1, available := 10, held := -10, total := 0, locked := true } := by
  constructor <;>
    norm_num [processEvents, applyEvent, handle_deposit, handle_resolve,
      handle_chargeback, insertFn, TransactionProcessor.new]

/-- Claim C5 amended: no dispute status is tracked, so Resolve and Chargeback
are applied whenever the event's client has an account and the referenced
entry is logged, regardless of any prior Dispute: Resolve adds the entry's
amount to available and subtracts it from held; Chargeback subtracts it from
held and total and locks the account. -/
theorem C5_resolve_chargeback_apply_without_dispute (st : TransactionProcessor)
    (c t : ℕ) (tx : Record) (acc : ClientAccount) (a : ℚ)
    (hacc : st.accounts c = some acc)
    (htx : st.transaction_log t = some tx)
    (hamt : tx.amount = some a) :
    handle_resolve st { action := Action.resolve, client := c, transaction := t, amount := none }
      = some { st with accounts := (insertFn st.accounts c
          { acc with held := acc.held - a, available := acc.available + a }) } ∧
    handle_chargeback st
        { action := Action.chargeback, client := c, transaction := t, amount := none }
      = some { st with accounts := (insertFn st.accounts c
          { acc with held := acc.held - a, total := acc.total - a, locked := true }) } := by
  constructor <;> simp [handle_resolve, handle_chargeback, hacc, htx, hamt]

theorem C5_resolve_chargeback_apply_without_dispute_witness :
    handle_resolve
        { accounts := insertFn (fun _ => none) 1
            { client := 1, available := 10, held := 0, total := 10, locked := false },
          transaction_log := insertFn (fun _ => none) 1
            { action := Action.deposit, client := 1, transaction := 1, amount := some 10 } }
        { action := Action.resolve, client := 1, transaction := 1, amount := none }
      = some { accounts := insertFn
                 (insertFn (fun _ => none) 1
                   { client := 1, available := 10, held := 0, total := 10, locked := false }) 1
                 { client := 1, available := 10 + 10, held := 0 - 10,
                   total := 10, locked := false },
               transaction_log := insertFn (fun _ => none) 1
                 { action := Action.deposit, client := 1, transaction := 1, amount := some 10 } } :=
  (C5_resolve_chargeback_apply_without_dispute
    { accounts := insertFn (fun _ => none) 1
        { client := 1, available := 10, held := 0, total := 10, locked := false },
      transaction_log := insertFn (fun _ => none) 1
        { action := Action.deposit, client := 1, transaction := 1, amount := some 10 } }
    1 1
    { action := Action.deposit, client := 1, transaction := 1, amount := some 10 }
    { client := 1, available := 10, held := 0, total := 10, locked := false }
    10 rfl rfl rfl).1

/-! ## Ignored withdrawals (claims C6 and C7) -/

/-- Claim C6: a Withdrawal whose target account is absent creates no account,
and one whose target account has available < amount changes no account field:
in both cases the entire account map is unchanged. -/
theorem C6_withdrawal_ignored (st : TransactionProcessor) (e : Record) (a : ℚ)
    (hact : e.action = Action.withdrawal)
    (hamt : e.amount = some a)
    (hno : st.accounts e.client = none ∨
      ∃ acc, st.accounts e.client = some acc ∧ acc.available < a) :
    (applyEvent st e).map TransactionProcessor.accounts = some st.accounts := by
  rcases hno with hacc | ⟨acc, hacc, hlt⟩
  · simp [applyEvent, hact, handle_withdrawal, hamt, hacc]
  · have hcond : ¬ (acc.available - a ≥ 0) := by linarith
    simp [applyEvent, hact, handle_withdrawal, hamt, hacc, hcond]

theorem C6_withdrawal_ignored_witness :
    (applyEvent
        { accounts := insertFn (fun _ => none) 2
            { client := 2, available := 100, held := 0, total := 100, locked := false },
          transaction_log := fun _ => none }
        { action := Action.withdrawal, client := 2, transaction := 1,
          amount := some 250 }).map TransactionProcessor.accounts
      = some ({ accounts := insertFn (fun _ => none) 2
                  { client := 2, available := 100, held := 0, total := 100, locked := false },
                transaction_log := fun _ => none } : TransactionProcessor).accounts :=
  C6_withdrawal_ignored
    { accounts := insertFn (fun _ => none) 2
        { client := 2, available := 100, held := 0, total := 100, locked := false },
      transaction_log := fun _ => none }
    { action := Action.withdrawal, client := 2, transaction := 1, amount := some 250 }
    250 rfl rfl
    (Or.inr ⟨{ client := 2, available := 100, held := 0, total := 100, locked := false },
      rfl, by norm_num⟩)

/-- Claim C7 counterexample: starting from Deposit(client 1, tx 1, 100), the
Withdrawal(client 1, tx 2, 250) is ignored for insufficient funds, yet its
record is retained in the transaction log under tx 2, and a later
Dispute(1, 2) referencing it is applied, moving 250 out of available. -/
theorem C7_ignored_withdrawal_counterexample :
    ((processEvents TransactionProcessor.new
        [{ action := Action.deposit, client := 1, transaction := 1, amount := some 100 },
         { action := Action.withdrawal, client := 1, transaction := 2, amount := some 250 }]).bind
      (fun st => st.transaction_log 2))
      = some { action := Action.withdrawal, client := 1, transaction := 2,
               amount := some 250 } ∧
    ((processEvents TransactionProcessor.new
        [{ action := Action.deposit, client := 1, transaction := 1, amount := some 100 },
         { action := Action.withdrawal, client := 1, transaction := 2, amount := some 250 },
         { action := Action.dispute, client := 1, transaction := 2, amount := none }]).bind
      (fun st => st.accounts 1))
      = some { client := 1, available := -150, held := 250, total := 100, locked := false } := by
  constructor <;>
    norm_num [processEvents, applyEvent, handle_deposit, handle_withdrawal,
      handle_dispute, insertFn, TransactionProcessor.new]

/-- Claim C7 amended: a Withdrawal ignored as a business no-op (account absent
or insufficient funds) leaves every account unchanged but still inserts its
record into the transaction log keyed by its tx, so it can later be
referenced by a Dispute. -/
theorem C7_ignored_withdrawal_still_logged (st : TransactionProcessor) (e : Record) (a : ℚ)
    (hact : e.action = Action.withdrawal)
    (hamt : e.amount = some a)
    (hno : st.accounts e.client = none ∨
      ∃ acc, st.accounts e.client = some acc ∧ acc.available < a) :
    applyEvent st e
      = some { accounts := st.accounts,
               transaction_log := insertFn st.transaction_log e.transaction e } := by
  rcases hno with hacc | ⟨acc, hacc, hlt⟩
  · simp [applyEvent, hact, handle_withdrawal, hamt, hacc]
  · have hcond : ¬ (acc.available - a ≥ 0) := by linarith
    simp [applyEvent, hact, handle_withdrawal, hamt, hacc, hcond]

theorem C7_ignored_withdrawal_still_logged_witness :
    applyEvent
        { accounts := insertFn (fun _ => none) 2
            { client := 2, available := 100, held := 0, total := 100, locked := false },
          transaction_log := fun _ => none }
        { action := Action.withdrawal, client := 2, transaction := 9, amount := some 250 }
      = some { accounts := insertFn (fun _ => none) 2
                 { client := 2, available := 100, held := 0, total := 100, locked := false },
               transaction_log := insertFn (fun _ => none) 9
                 { action := Action.withdrawal, client := 2, transaction := 9,
                   amount := some 250 } } :=
  C7_ignored_withdrawal_still_logged
    { accounts := insertFn (fun _ => none) 2
        { client := 2, available := 100, held := 0, total := 100, locked := false },
      transaction_log := fun _ => none }
    { action := Action.withdrawal, client := 2, transaction := 9, amount := some 250 }
    250 rfl rfl
    (Or.inr ⟨{ client := 2, available := 100, held := 0, total := 100, locked := false },
      rfl, by norm_num⟩)

/-! ## Dispute followed by Resolve (claim C10) -/

/-- Claim C10: for any state with an account for client c and a logged entry
for tx t carrying an amount, Dispute(c, t) followed by Resolve(c, t) restores
that account exactly (available, held, total, and all other fields), with
exact arithmetic. -/
theorem C10_dispute_resolve_identity (st : TransactionProcessor) (c t : ℕ)
    (tx : Record) (acc : ClientAccount) (a : ℚ)
    (hacc : st.accounts c = some acc)
    (htx : st.transaction_log t = some tx)
    (hamt : tx.amount = some a) :
    ((handle_dispute st
        { action := Action.dispute, client := c, transaction := t, amount := none }).bind
      (fun st2 => handle_resolve st2
        { action := Action.resolve, client := c, transaction := t, amount := none })).bind
      (fun st3 => st3.accounts c)
      = some acc := by
  simp [handle_dispute, handle_resolve, hacc, htx, hamt, insertFn]

theorem C10_dispute_resolve_identity_witness :
    ((handle_dispute
        { accounts := insertFn (fun _ => none) 1
            { client := 1, available := 7, held := 2, total := 9, locked := false },
          transaction_log := insertFn (fun _ => none) 4
            { action := Action.deposit, client := 1, transaction := 4, amount := some 3 } }
        { action := Action.dispute, client := 1, transaction := 4, amount := none }).bind
      (fun st2 => handle_resolve st2
        { action := Action.resolve, client := 1, transaction := 4, amount := none })).bind
      (fun st3 => st3.accounts 1)
      = some { client := 1, available := 7, held := 2, total := 9, locked := false } :=
  C10_dispute_resolve_identity
    { accounts := insertFn (fun _ => none) 1
        { client := 1, available := 7, held := 2, total := 9, locked := false },
      transaction_log := insertFn (fun _ => none) 4
        { action := Action.deposit, client := 1, transaction := 4, amount := some 3 } }
    1 4
    { action := Action.deposit, client := 1, transaction := 4, amount := some 3 }
    { client := 1, available := 7, held := 2, total := 9, locked := false }
    3 rfl rfl rfl

end TxProc
